import Mathlib

/-!
Verification development for the Monkey interpreter (lexer, Pratt parser,
tree-walking evaluator).  The definitions below are a shallow embedding of
the Go source: `src/lexer/lexer.go`, `src/parser/parser.go` and
`src/evaluator/evaluator.go` (first revision in each file).  The `token`,
`object` (value model, environment) and builtin-registry packages are not
present under `src/`; those parts are modelled from the specification and
carry a doc comment saying so.

Modelling conventions:
- Go byte cursors are modelled over `List Char`; every input exercised here
  is ASCII, where bytes and characters coincide.
- Go `int64` values are `Int` with an explicit two's-complement wrap
  (`wrap64`) applied by every arithmetic operator.
- Go's `nil` object is `Option Obj` with `none`; a Go runtime panic
  (division by zero, nil dereference, index out of range) is the explicit
  outcome `Outcome.panicked`.
- Unbounded loops and recursion take a fuel argument; exhausted fuel yields
  a dedicated outcome that no theorem identifies with real behaviour.
-/

namespace Monkey

/-! ## Tokens

Modelled from the spec: the `token` package is absent from `src/`; the kind
enumeration, the rendered kind strings and the keyword table follow section 3
of the specification. -/

inductive TokType where
  | ILLEGAL | EOF
  | IDENT | INT | STRING
  | ASSIGN | PLUS | MINUS | BANG | ASTERISK | SLASH
  | LT | GT | EQ | NOT_EQ
  | COMMA | SEMICOLON | COLON
  | LPAREN | RPAREN | LBRACE | RBRACE | LBRACKET | RBRACKET
  | FUNCTION | LET | TRUE | FALSE | IF | ELSE | RETURN
deriving DecidableEq, Repr

/-- Rendered value of each token kind, used in parser error messages. -/
def tokTypeString : TokType → String
  | .ILLEGAL => "ILLEGAL"
  | .EOF => "EOF"
  | .IDENT => "IDENT"
  | .INT => "INT"
  | .STRING => "STRING"
  | .ASSIGN => "="
  | .PLUS => "+"
  | .MINUS => "-"
  | .BANG => "!"
  | .ASTERISK => "*"
  | .SLASH => "/"
  | .LT => "<"
  | .GT => ">"
  | .EQ => "=="
  | .NOT_EQ => "!="
  | .COMMA => ","
  | .SEMICOLON => ";"
  | .COLON => ":"
  | .LPAREN => "("
  | .RPAREN => ")"
  | .LBRACE => "\x7b"
  | .RBRACE => "\x7d"
  | .LBRACKET => "["
  | .RBRACKET => "]"
  | .FUNCTION => "FUNCTION"
  | .LET => "LET"
  | .TRUE => "TRUE"
  | .FALSE => "FALSE"
  | .IF => "IF"
  | .ELSE => "ELSE"
  | .RETURN => "RETURN"

structure Token where
  ttype : TokType
  literal : String
deriving DecidableEq, Repr

/-- Keyword table of `token.LookupIdent`, from section 3 of the spec. -/
def lookupIdent (s : String) : TokType :=
  if s = "fn" then .FUNCTION
  else if s = "let" then .LET
  else if s = "true" then .TRUE
  else if s = "false" then .FALSE
  else if s = "if" then .IF
  else if s = "else" then .ELSE
  else if s = "return" then .RETURN
  else .IDENT

/-! ## Lexer (src/lexer/lexer.go) -/

/-- Byte value 0, the end-of-input sentinel of the Go lexer. -/
def nulChar : Char := '\x00'

/-- Lexer state: `input`, `position`, `readPosition`, `ch`, exactly the
fields of the Go struct. -/
structure Lexer where
  input : List Char
  position : Nat
  readPosition : Nat
  ch : Char
deriving Repr

/-- Go `readChar`: load the byte at `readPosition` (0 past the end) and
advance both cursors. -/
def readChar (l : Lexer) : Lexer :=
  let c := if l.readPosition ≥ l.input.length then nulChar
           else l.input.getD l.readPosition nulChar
  { l with ch := c, position := l.readPosition, readPosition := l.readPosition + 1 }

/-- Go `New`: construct a lexer and read the first character. -/
def newLexer (input : List Char) : Lexer :=
  readChar { input := input, position := 0, readPosition := 0, ch := nulChar }

/-- Go `peekChar`. -/
def peekChar (l : Lexer) : Char :=
  if l.readPosition ≥ l.input.length then nulChar
  else l.input.getD l.readPosition nulChar

/-- Go `isLetter`. -/
def isLetterCh (c : Char) : Bool :=
  ('a' ≤ c && c ≤ 'z') || ('A' ≤ c && c ≤ 'Z') || c = '_'

/-- Go `isDigit`. -/
def isDigitCh (c : Char) : Bool :=
  '0' ≤ c && c ≤ '9'

/-- Go slice `l.input[a:b]` as a string (indices are character positions;
inputs are ASCII). -/
def goSlice (input : List Char) (a b : Nat) : String :=
  String.mk ((input.take b).drop a)

/-- Go `skipWhitespace` loop, with fuel (callers pass at least
`input.length + 2`, always sufficient). -/
def skipWhitespace : Nat → Lexer → Lexer
  | 0, l => l
  | fuel + 1, l =>
    if l.ch = ' ' ∨ l.ch = '\t' ∨ l.ch = '\n' ∨ l.ch = '\r' then
      skipWhitespace fuel (readChar l)
    else l

/-- Scanning loop shared by `readNumber` and `readIdentifier`: advance while
the predicate holds of the current character. -/
def scanWhile (pred : Char → Bool) : Nat → Lexer → Lexer
  | 0, l => l
  | fuel + 1, l =>
    if pred l.ch then scanWhile pred fuel (readChar l) else l

/-- Go `readNumber`. -/
def readNumber (l : Lexer) : String × Lexer :=
  let l2 := scanWhile isDigitCh (l.input.length + 2) l
  (goSlice l.input l.position l2.position, l2)

/-- Go `readIdentifier`. -/
def readIdentifier (l : Lexer) : String × Lexer :=
  let l2 := scanWhile isLetterCh (l.input.length + 2) l
  (goSlice l.input l.position l2.position, l2)

/-- Go `readString` inner loop: read characters until a closing quote or
byte 0 appears as the current character. -/
def readStringLoop : Nat → Lexer → Lexer
  | 0, l => l
  | fuel + 1, l =>
    let l2 := readChar l
    if l2.ch = '"' ∨ l2.ch = nulChar then l2 else readStringLoop fuel l2

/-- Go `readString`: the literal starts one past the opening quote and ends
before the terminator; the quotes themselves are excluded. -/
def readString (l : Lexer) : String × Lexer :=
  let start := l.position + 1
  let l2 := readStringLoop (l.input.length + 2) l
  (goSlice l.input start l2.position, l2)

/-- Go `NextToken`: skip whitespace, dispatch on the current character
(the switch is rendered as an if-chain over the same disjoint cases), and
advance past single-character tokens. -/
def nextTokenL (l0 : Lexer) : Token × Lexer :=
  let l := skipWhitespace (l0.input.length + 2) l0
  if l.ch = '=' then
    if peekChar l = '=' then
      let c0 := l.ch
      let l1 := readChar l
      (⟨.EQ, String.mk [c0, l1.ch]⟩, readChar l1)
    else (⟨.ASSIGN, String.mk [l.ch]⟩, readChar l)
  else if l.ch = ';' then (⟨.SEMICOLON, String.mk [l.ch]⟩, readChar l)
  else if l.ch = '+' then (⟨.PLUS, String.mk [l.ch]⟩, readChar l)
  else if l.ch = '-' then (⟨.MINUS, String.mk [l.ch]⟩, readChar l)
  else if l.ch = '!' then
    if peekChar l = '=' then
      let c0 := l.ch
      let l1 := readChar l
      (⟨.NOT_EQ, String.mk [c0, l1.ch]⟩, readChar l1)
    else (⟨.BANG, String.mk [l.ch]⟩, readChar l)
  else if l.ch = '\x7b' then (⟨.LBRACE, String.mk [l.ch]⟩, readChar l)
  else if l.ch = '\x7d' then (⟨.RBRACE, String.mk [l.ch]⟩, readChar l)
  else if l.ch = '/' then (⟨.SLASH, String.mk [l.ch]⟩, readChar l)
  else if l.ch = '*' then (⟨.ASTERISK, String.mk [l.ch]⟩, readChar l)
  else if l.ch = '<' then (⟨.LT, String.mk [l.ch]⟩, readChar l)
  else if l.ch = '>' then (⟨.GT, String.mk [l.ch]⟩, readChar l)
  else if l.ch = '(' then (⟨.LPAREN, String.mk [l.ch]⟩, readChar l)
  else if l.ch = ')' then (⟨.RPAREN, String.mk [l.ch]⟩, readChar l)
  else if l.ch = ',' then (⟨.COMMA, String.mk [l.ch]⟩, readChar l)
  else if l.ch = '"' then
    let (s, l2) := readString l
    (⟨.STRING, s⟩, readChar l2)
  else if l.ch = '[' then (⟨.LBRACKET, String.mk [l.ch]⟩, readChar l)
  else if l.ch = ']' then (⟨.RBRACKET, String.mk [l.ch]⟩, readChar l)
  else if l.ch = ':' then (⟨.COLON, String.mk [l.ch]⟩, readChar l)
  else if l.ch = nulChar then (⟨.EOF, ""⟩, readChar l)
  else if isLetterCh l.ch then
    let (s, l2) := readIdentifier l
    (⟨lookupIdent s, s⟩, l2)
  else if isDigitCh l.ch then
    let (s, l2) := readNumber l
    (⟨.INT, s⟩, l2)
  else (⟨.ILLEGAL, String.mk [l.ch]⟩, readChar l)

/-- Drive `NextToken` until the lexer hands back `EOF`; the `EOF` token is
kept as the stream terminator. -/
def tokenizeLoop : Nat → Lexer → List Token
  | 0, _ => []
  | fuel + 1, l =>
    let (t, l2) := nextTokenL l
    if t.ttype = .EOF then [t] else t :: tokenizeLoop fuel l2

/-- Token stream of a source string.  Every `NextToken` call that does not
produce `EOF` consumes at least one character, so the fuel is sufficient. -/
def tokenize (s : String) : List Token :=
  tokenizeLoop (s.length + 2) (newLexer s.toList)

/-! ## AST (the `ast` package)

Each Go node also stores the token that produced it and rendering methods;
neither has semantic content for parsing or evaluation, so nodes keep only
their semantic fields.  `nilE` stands for a Go `nil` `ast.Expression`
(produced by failed parses); evaluating it matches no `Eval` case and
returns the nil object.  A `BlockStatement` is its list of statements;
parameters and identifiers are their name strings. -/

mutual
inductive Expr where
  | nilE
  | ident (value : String)
  | intLit (value : Int)
  | boolLit (value : Bool)
  | strLit (value : String)
  | arrayLit (elements : List Expr)
  | hashLit (pairs : List (Expr × Expr))
  | prefixE (op : String) (right : Expr)
  | infixE (op : String) (left : Expr) (right : Expr)
  | ifE (cond : Expr) (cons : List Stmt) (alt : Option (List Stmt))
  | funcLit (parameters : List String) (body : List Stmt)
  | callE (func : Expr) (args : List Expr)
  | indexE (left : Expr) (index : Expr)

inductive Stmt where
  | letS (name : String) (value : Expr)
  | returnS (value : Expr)
  | exprS (e : Expr)
  | blockS (stmts : List Stmt)
  | nilLetS
end

/-!
`Stmt.nilLetS` is the nil `*ast.LetStatement` a failed `parseLetStatement`
returns: converting it to the `ast.Statement` interface in `parseStatement`
yields a non-nil interface value, so `ParseProgram`'s `stmt != nil` check
passes and the statement is appended.  Evaluating it matches the
`LetStatement` case of `Eval` with a nil node, and reading `node.Value`
dereferences the nil pointer. -/

/-! ## Parser (src/parser/parser.go) -/

/-- Precedence levels, matching the `iota` block (`LOWEST = 1` …
`INDEX = 8`). -/
def LOWEST : Nat := 1
def EQUALS : Nat := 2
def LESSGREATER : Nat := 3
def SUM : Nat := 4
def PRODUCT : Nat := 5
def PREFIX : Nat := 6
def CALL : Nat := 7
def INDEX : Nat := 8

/-- The `precedences` table; kinds without an entry get `LOWEST` at the two
lookup sites. -/
def precedenceOf (t : TokType) : Nat :=
  match t with
  | .EQ => EQUALS
  | .NOT_EQ => EQUALS
  | .LT => LESSGREATER
  | .GT => LESSGREATER
  | .PLUS => SUM
  | .MINUS => SUM
  | .SLASH => PRODUCT
  | .ASTERISK => PRODUCT
  | .LPAREN => CALL
  | .LBRACKET => INDEX
  | _ => LOWEST

/-- Parser state: the Go parser holds `curToken`/`peekToken` and pulls
further tokens lazily from the lexer; pre-computing the stream is
observationally identical because lexing is one-pass and deterministic.
After the stream is exhausted the lexer keeps producing `EOF`. -/
structure PState where
  curToken : Token
  peekToken : Token
  rest : List Token
  errors : List String
deriving Repr

def eofToken : Token := ⟨.EOF, ""⟩

/-- Go `nextToken` on the parser. -/
def pNextToken (p : PState) : PState :=
  { curToken := p.peekToken,
    peekToken := p.rest.headD eofToken,
    rest := p.rest.tail,
    errors := p.errors }

/-- Go `New`: prime `curToken` and `peekToken` by advancing twice (the
zero-valued initial tokens are never observed). -/
def newParser (toks : List Token) : PState :=
  pNextToken (pNextToken ⟨eofToken, eofToken, toks, []⟩)

def curTokenIs (p : PState) (t : TokType) : Bool := p.curToken.ttype = t

def peekTokenIs (p : PState) (t : TokType) : Bool := p.peekToken.ttype = t

def peekPrecedence (p : PState) : Nat := precedenceOf p.peekToken.ttype

def curPrecedence (p : PState) : Nat := precedenceOf p.curToken.ttype

/-- Go `peekError`. -/
def peekError (t : TokType) (p : PState) : PState :=
  { p with errors := p.errors ++
      ["expected next token to be " ++ tokTypeString t ++ ", got " ++
       tokTypeString p.peekToken.ttype ++ " instead"] }

/-- Go `expectPeek`: advance on the expected kind, otherwise record a
`peekError`. -/
def expectPeek (t : TokType) (p : PState) : Bool × PState :=
  if peekTokenIs p t then (true, pNextToken p) else (false, peekError t p)

/-- Go `noPrefixParseFnError`. -/
def noPrefixParseFnError (t : TokType) (p : PState) : PState :=
  { p with errors := p.errors ++
      ["no prefix parse function for " ++ tokTypeString t ++ " found"] }

/-- Largest `int64` value, the `bitSize = 64` bound of `strconv.ParseInt`. -/
def maxInt64Nat : Nat := 2 ^ 63 - 1

def digitsToNat (base : Nat) (l : List Char) : Nat :=
  l.foldl (fun acc c => acc * base + (c.toNat - '0'.toNat)) 0

/-- Go `strconv.ParseInt(lit, 0, 64)` restricted to the non-empty digit
strings the lexer produces: base 0 reads a leading `0` as octal (so a digit
8 or 9 after it is an error), otherwise decimal; values beyond `int64`
range are errors.  Hex/binary prefixes and underscores cannot reach here. -/
def parseGoInt (s : String) : Option Int :=
  match s.toList with
  | [] => none
  | ['0'] => some 0
  | '0' :: ds =>
    if ds.all (fun c => '0' ≤ c && c ≤ '7') then
      let v := digitsToNat 8 ds
      if v ≤ maxInt64Nat then some (v : Nat) else none
    else none
  | ds =>
    if ds.all isDigitCh then
      let v := digitsToNat 10 ds
      if v ≤ maxInt64Nat then some (v : Nat) else none
    else none

/-- Go `parseIdentifier`. -/
def parseIdentifier (p : PState) : Expr × PState :=
  (.ident p.curToken.literal, p)

/-- Go `parseBoolean`. -/
def parseBoolean (p : PState) : Expr × PState :=
  (.boolLit (curTokenIs p .TRUE), p)

/-- Go `parseStringLiteral`. -/
def parseStringLiteral (p : PState) : Expr × PState :=
  (.strLit p.curToken.literal, p)

/-- Go `parseIntegerLiteral`: record an error and return the nil expression
when `ParseInt` fails. -/
def parseIntegerLiteral (p : PState) : Expr × PState :=
  match parseGoInt p.curToken.literal with
  | some v => (.intLit v, p)
  | none =>
    (.nilE, { p with errors := p.errors ++
        ["could not parse \"" ++ p.curToken.literal ++ "\" as integer"] })

/-- Token kinds with a registered prefix parse function. -/
def hasPrefixFn (t : TokType) : Bool :=
  match t with
  | .TRUE | .FALSE | .LPAREN | .IF | .FUNCTION | .IDENT | .INT
  | .BANG | .MINUS | .STRING | .LBRACKET | .LBRACE => true
  | _ => false

/-- Token kinds with a registered infix parse function. -/
def hasInfixFn (t : TokType) : Bool :=
  match t with
  | .PLUS | .MINUS | .SLASH | .ASTERISK | .EQ | .NOT_EQ | .LT | .GT
  | .LPAREN | .LBRACKET => true
  | _ => false

mutual

/-- Go `parseExpression`: prefix dispatch then the precedence-driven infix
loop.  Exhausted fuel returns the nil expression; chosen fuels always
suffice for the inputs of the theorems below. -/
def parseExpression : Nat → Nat → PState → Expr × PState
  | 0, _, p => (.nilE, p)
  | fuel + 1, prec, p =>
    if hasPrefixFn p.curToken.ttype then
      let (leftExp, p2) := runPrefixFn fuel p.curToken.ttype p
      parseInfixLoop fuel prec leftExp p2
    else (.nilE, noPrefixParseFnError p.curToken.ttype p)

  termination_by structural fuel => fuel

/-- Prefix dispatch table (the `prefixParseFns` registrations in `New`). -/
def runPrefixFn : Nat → TokType → PState → Expr × PState
  | 0, _, p => (.nilE, p)
  | fuel + 1, t, p =>
    match t with
    | .IDENT => parseIdentifier p
    | .INT => parseIntegerLiteral p
    | .STRING => parseStringLiteral p
    | .TRUE => parseBoolean p
    | .FALSE => parseBoolean p
    | .BANG => parsePrefixExpression fuel p
    | .MINUS => parsePrefixExpression fuel p
    | .LPAREN => parseGroupedExpression fuel p
    | .IF => parseIfExpression fuel p
    | .FUNCTION => parseFunctionLiteral fuel p
    | .LBRACKET => parseArrayLiteral fuel p
    | .LBRACE => parseHashLiteral fuel p
    | _ => (.nilE, p)

  termination_by structural fuel => fuel

/-- The `for` loop of Go `parseExpression`: while the peek token is not a
semicolon and binds tighter, advance and apply its infix function; a kind
without an infix function ends the loop. -/
def parseInfixLoop : Nat → Nat → Expr → PState → Expr × PState
  | 0, _, left, p => (left, p)
  | fuel + 1, prec, left, p =>
    if ¬ peekTokenIs p .SEMICOLON ∧ prec < peekPrecedence p then
      if hasInfixFn p.peekToken.ttype then
        let t := p.peekToken.ttype
        let p2 := pNextToken p
        let (left2, p3) :=
          match t with
          | .LPAREN => parseCallExpression fuel left p2
          | .LBRACKET => parseIndexExpression fuel left p2
          | _ => parseInfixExpression fuel left p2
        parseInfixLoop fuel prec left2 p3
      else (left, p)
    else (left, p)

  termination_by structural fuel => fuel

/-- Go `parsePrefixExpression`. -/
def parsePrefixExpression : Nat → PState → Expr × PState
  | 0, p => (.nilE, p)
  | fuel + 1, p =>
    let op := p.curToken.literal
    let p2 := pNextToken p
    let (right, p3) := parseExpression fuel PREFIX p2
    (.prefixE op right, p3)

  termination_by structural fuel => fuel

/-- Go `parseInfixExpression`. -/
def parseInfixExpression : Nat → Expr → PState → Expr × PState
  | 0, _, p => (.nilE, p)
  | fuel + 1, left, p =>
    let op := p.curToken.literal
    let prec := curPrecedence p
    let p2 := pNextToken p
    let (right, p3) := parseExpression fuel prec p2
    (.infixE op left right, p3)

  termination_by structural fuel => fuel

/-- Go `parseGroupedExpression`. -/
def parseGroupedExpression : Nat → PState → Expr × PState
  | 0, p => (.nilE, p)
  | fuel + 1, p =>
    let p2 := pNextToken p
    let (exp, p3) := parseExpression fuel LOWEST p2
    match expectPeek .RPAREN p3 with
    | (false, p4) => (.nilE, p4)
    | (true, p4) => (exp, p4)

  termination_by structural fuel => fuel

/-- Go `parseIfExpression`. -/
def parseIfExpression : Nat → PState → Expr × PState
  | 0, p => (.nilE, p)
  | fuel + 1, p =>
    match expectPeek .LPAREN p with
    | (false, p2) => (.nilE, p2)
    | (true, p2) =>
      let p3 := pNextToken p2
      let (cond, p4) := parseExpression fuel LOWEST p3
      match expectPeek .RPAREN p4 with
      | (false, p5) => (.nilE, p5)
      | (true, p5) =>
        match expectPeek .LBRACE p5 with
        | (false, p6) => (.nilE, p6)
        | (true, p6) =>
          let (cons, p7) := parseBlockStatement fuel p6
          if peekTokenIs p7 .ELSE then
            let p8 := pNextToken p7
            match expectPeek .LBRACE p8 with
            | (false, p9) => (.nilE, p9)
            | (true, p9) =>
              let (alt, p10) := parseBlockStatement fuel p9
              (.ifE cond cons (some alt), p10)
          else (.ifE cond cons none, p7)

  termination_by structural fuel => fuel

/-- Go `parseBlockStatement`: advance past the brace, then collect
statements until `}` or `EOF`. -/
def parseBlockStatement : Nat → PState → List Stmt × PState
  | 0, p => ([], p)
  | fuel + 1, p => parseBlockLoop fuel [] (pNextToken p)

  termination_by structural fuel => fuel

/-- The statement loop of `parseBlockStatement` (`acc` is the accumulated
`block.Statements`). -/
def parseBlockLoop : Nat → List Stmt → PState → List Stmt × PState
  | 0, acc, p => (acc, p)
  | fuel + 1, acc, p =>
    if ¬ curTokenIs p .RBRACE ∧ ¬ curTokenIs p .EOF then
      let (stmtOpt, p2) := parseStatement fuel p
      let acc2 := match stmtOpt with
        | some s => acc ++ [s]
        | none => acc
      parseBlockLoop fuel acc2 (pNextToken p2)
    else (acc, p)

  termination_by structural fuel => fuel

/-- Go `parseFunctionLiteral`. -/
def parseFunctionLiteral : Nat → PState → Expr × PState
  | 0, p => (.nilE, p)
  | fuel + 1, p =>
    match expectPeek .LPAREN p with
    | (false, p2) => (.nilE, p2)
    | (true, p2) =>
      let (params, p3) := parseFunctionParameters fuel p2
      match expectPeek .LBRACE p3 with
      | (false, p4) => (.nilE, p4)
      | (true, p4) =>
        let (body, p5) := parseBlockStatement fuel p4
        (.funcLit params body, p5)

  termination_by structural fuel => fuel

/-- Go `parseFunctionParameters` (a failed closing paren returns the nil
slice, modelled as `[]`). -/
def parseFunctionParameters : Nat → PState → List String × PState
  | 0, p => ([], p)
  | fuel + 1, p =>
    if peekTokenIs p .RPAREN then ([], pNextToken p)
    else
      let p2 := pNextToken p
      parseFnParamsLoop fuel [p2.curToken.literal] p2

/-- The comma loop of `parseFunctionParameters`. -/
def parseFnParamsLoop : Nat → List String → PState → List String × PState
  | 0, acc, p => (acc, p)
  | fuel + 1, acc, p =>
    if peekTokenIs p .COMMA then
      let p2 := pNextToken (pNextToken p)
      parseFnParamsLoop fuel (acc ++ [p2.curToken.literal]) p2
    else
      match expectPeek .RPAREN p with
      | (false, p2) => ([], p2)
      | (true, p2) => (acc, p2)

  termination_by structural fuel => fuel

/-- Go `parseExpressionList` (shared by array literals and call
arguments). -/
def parseExpressionList : Nat → TokType → PState → List Expr × PState
  | 0, _, p => ([], p)
  | fuel + 1, endT, p =>
    if peekTokenIs p endT then ([], pNextToken p)
    else
      let p2 := pNextToken p
      let (e, p3) := parseExpression fuel LOWEST p2
      parseExprListLoop fuel endT [e] p3

  termination_by structural fuel => fuel

/-- The comma loop of `parseExpressionList` (a failed end token returns the
nil slice, modelled as `[]`). -/
def parseExprListLoop : Nat → TokType → List Expr → PState → List Expr × PState
  | 0, _, acc, p => (acc, p)
  | fuel + 1, endT, acc, p =>
    if peekTokenIs p .COMMA then
      let p2 := pNextToken (pNextToken p)
      let (e, p3) := parseExpression fuel LOWEST p2
      parseExprListLoop fuel endT (acc ++ [e]) p3
    else
      match expectPeek endT p with
      | (false, p2) => ([], p2)
      | (true, p2) => (acc, p2)

  termination_by structural fuel => fuel

/-- Go `parseArrayLiteral`. -/
def parseArrayLiteral : Nat → PState → Expr × PState
  | 0, p => (.nilE, p)
  | fuel + 1, p =>
    let (elems, p2) := parseExpressionList fuel .RBRACKET p
    (.arrayLit elems, p2)

  termination_by structural fuel => fuel

/-- Go `parseCallExpression`. -/
def parseCallExpression : Nat → Expr → PState → Expr × PState
  | 0, _, p => (.nilE, p)
  | fuel + 1, func, p =>
    let (args, p2) := parseExpressionList fuel .RPAREN p
    (.callE func args, p2)

  termination_by structural fuel => fuel

/-- Go `parseIndexExpression`. -/
def parseIndexExpression : Nat → Expr → PState → Expr × PState
  | 0, _, p => (.nilE, p)
  | fuel + 1, left, p =>
    let p2 := pNextToken p
    let (idx, p3) := parseExpression fuel LOWEST p2
    match expectPeek .RBRACKET p3 with
    | (false, p4) => (.nilE, p4)
    | (true, p4) => (.indexE left idx, p4)

  termination_by structural fuel => fuel

/-- Go `parseHashLiteral`: the pair loop, then the closing brace.  A `none`
pair result is Go returning nil mid-way. -/
def parseHashLiteral : Nat → PState → Expr × PState
  | 0, p => (.nilE, p)
  | fuel + 1, p =>
    match parseHashPairs fuel [] p with
    | (none, p2) => (.nilE, p2)
    | (some pairs, p2) =>
      match expectPeek .RBRACE p2 with
      | (false, p3) => (.nilE, p3)
      | (true, p3) => (.hashLit pairs, p3)

  termination_by structural fuel => fuel

/-- The pair loop of `parseHashLiteral`: while the peek token is not `}`,
parse `key : value`; afterwards a comma is consumed when the peek token is
not `}` (its absence is an error).  AST keys are distinct Go pointers, so
each pair is appended. -/
def parseHashPairs : Nat → List (Expr × Expr) → PState →
    Option (List (Expr × Expr)) × PState
  | 0, acc, p => (some acc, p)
  | fuel + 1, acc, p =>
    if ¬ peekTokenIs p .RBRACE then
      let p2 := pNextToken p
      let (key, p3) := parseExpression fuel LOWEST p2
      match expectPeek .COLON p3 with
      | (false, p4) => (none, p4)
      | (true, p4) =>
        let p5 := pNextToken p4
        let (value, p6) := parseExpression fuel LOWEST p5
        let acc2 := acc ++ [(key, value)]
        if ¬ peekTokenIs p6 .RBRACE then
          match expectPeek .COMMA p6 with
          | (false, p7) => (none, p7)
          | (true, p7) => parseHashPairs fuel acc2 p7
        else parseHashPairs fuel acc2 p6
    else (some acc, p)

  termination_by structural fuel => fuel

/-- Go `parseStatement`.  The `LET` branch converts the possibly-nil
`*ast.LetStatement` to the statement interface, so a failed let still
yields a (non-nil) statement, `Stmt.nilLetS`; the `none` of the fuel-0
case is a model artifact outside any run. -/
def parseStatement : Nat → PState → Option Stmt × PState
  | 0, p => (none, p)
  | fuel + 1, p =>
    match p.curToken.ttype with
    | .LET =>
      match parseLetStatement fuel p with
      | (none, p2) => (some .nilLetS, p2)
      | (some s, p2) => (some s, p2)
    | .RETURN => parseReturnStatement fuel p
    | _ => parseExpressionStatement fuel p

  termination_by structural fuel => fuel

/-- Go `parseLetStatement`. -/
def parseLetStatement : Nat → PState → Option Stmt × PState
  | 0, p => (none, p)
  | fuel + 1, p =>
    match expectPeek .IDENT p with
    | (false, p2) => (none, p2)
    | (true, p2) =>
      let name := p2.curToken.literal
      match expectPeek .ASSIGN p2 with
      | (false, p3) => (none, p3)
      | (true, p3) =>
        let p4 := pNextToken p3
        let (value, p5) := parseExpression fuel LOWEST p4
        let p6 := if peekTokenIs p5 .SEMICOLON then pNextToken p5 else p5
        (some (.letS name value), p6)

  termination_by structural fuel => fuel

/-- Go `parseReturnStatement`. -/
def parseReturnStatement : Nat → PState → Option Stmt × PState
  | 0, p => (none, p)
  | fuel + 1, p =>
    let p2 := pNextToken p
    let (value, p3) := parseExpression fuel LOWEST p2
    let p4 := if peekTokenIs p3 .SEMICOLON then pNextToken p3 else p3
    (some (.returnS value), p4)

  termination_by structural fuel => fuel

/-- Go `parseExpressionStatement`. -/
def parseExpressionStatement : Nat → PState → Option Stmt × PState
  | 0, p => (none, p)
  | fuel + 1, p =>
    let (e, p2) := parseExpression fuel LOWEST p
    let p3 := if peekTokenIs p2 .SEMICOLON then pNextToken p2 else p2
    (some (.exprS e), p3)

  termination_by structural fuel => fuel

/-- Go `ParseProgram`: collect statements until the current token is
`EOF`. -/
def parseProgramLoop : Nat → List Stmt → PState → List Stmt × PState
  | 0, acc, p => (acc, p)
  | fuel + 1, acc, p =>
    if ¬ curTokenIs p .EOF then
      let (stmtOpt, p2) := parseStatement fuel p
      let acc2 := match stmtOpt with
        | some s => acc ++ [s]
        | none => acc
      parseProgramLoop fuel acc2 (pNextToken p2)
    else (acc, p)

  termination_by structural fuel => fuel

end

/-- Parse a token stream: the program statements and the accumulated parser
errors. -/
def parseTokens (toks : List Token) : List Stmt × List String :=
  let (stmts, p) := parseProgramLoop 1000 [] (newParser toks)
  (stmts, p.errors)

/-- Lex and parse a source string. -/
def parseSource (s : String) : List Stmt × List String :=
  parseTokens (tokenize s)

/-! ## Value model (the `object` package)

Modelled from the spec: the `object` package is absent from `src/`; the
value variants, type tags, hash keys and the environment follow section 3 of
the specification.  Values live behind pointers in Go; here they are pure
data, and environments (the one mutable structure) live in a store `St`
addressed by index, so that closures share and observe `let` mutation
exactly as the Go heap does. -/

/-- HashKey of the spec: a type tag paired with an unsigned 64-bit hash. -/
structure HashKey where
  tag : String
  value : Nat
deriving DecidableEq, Repr

/-!
Heap identity: every Go object lives behind a pointer, and the generic
`==`/`!=` path compares those pointers.  The kinds that can reach that
comparison as distinct aliases of one allocation — arrays, hashes,
functions and return sentinels, all of which can be stored by `let` and
read back — carry the serial number `id` of their allocation, drawn from
the store, so pointer equality is id equality.  Booleans and null are the
three shared singletons and builtins are registry singletons (one object
per name), so those kinds compare by value.  Integer, string and error
allocations carry no id: both-integer and both-string operand pairs are
dispatched to the value branches before any pointer comparison, and error
operands never reach an infix operator at all (`isError` short-circuits
them), so their pointer identity is unobservable in evaluation. -/

mutual
inductive Obj where
  | integer (value : Int)
  | boolean (value : Bool)
  | null
  | str (value : String)
  | array (id : Nat) (elements : List (Option Obj))
  | hash (id : Nat) (pairs : List (HashKey × HashPair))
  | function (id : Nat) (parameters : List String) (body : List Stmt) (env : Nat)
  | builtin (name : String)
  | returnV (id : Nat) (value : Option Obj)
  | error (message : String)

/-- The `HashPair` of the spec: the original key object and the value. -/
inductive HashPair where
  | mk (key : Obj) (value : Option Obj)
end

def HashPair.key : HashPair → Obj
  | .mk k _ => k

def HashPair.value : HashPair → Option Obj
  | .mk _ v => v

/-- Type-tag constants of the `object` package (section 3 of the spec). -/
def INTEGER_OBJ : String := "INTEGER"
def BOOLEAN_OBJ : String := "BOOLEAN"
def NULL_OBJ : String := "NULL"
def STRING_OBJ : String := "STRING"
def ARRAY_OBJ : String := "ARRAY"
def HASH_OBJ : String := "HASH"
def FUNCTION_OBJ : String := "FUNCTION"
def BUILTIN_OBJ : String := "BUILTIN"
def RETURN_VALUE_OBJ : String := "RETURN_VALUE"
def ERROR_OBJ : String := "ERROR"

/-- The `Type()` discriminator of every value. -/
def Obj.objType : Obj → String
  | .integer _ => INTEGER_OBJ
  | .boolean _ => BOOLEAN_OBJ
  | .null => NULL_OBJ
  | .str _ => STRING_OBJ
  | .array _ _ => ARRAY_OBJ
  | .hash _ _ => HASH_OBJ
  | .function _ _ _ _ => FUNCTION_OBJ
  | .builtin _ => BUILTIN_OBJ
  | .returnV _ _ => RETURN_VALUE_OBJ
  | .error _ => ERROR_OBJ

/-- FNV-1a 64-bit hash of the bytes of a string (the stable string hash the
spec names). -/
def fnv1a (s : String) : Nat :=
  s.toUTF8.toList.foldl
    (fun h b => ((h ^^^ b.toNat) * 16777619) % (2 ^ 64))
    14695981039346656037

/-- HashKey of a hashable value (`none` for the unhashable kinds): integer
as its unsigned 64-bit representation, boolean as 0/1, string by FNV-1a. -/
def hashKeyOf : Obj → Option HashKey
  | .integer v => some ⟨INTEGER_OBJ, (v % (2 ^ 64 : Int)).toNat⟩
  | .boolean b => some ⟨BOOLEAN_OBJ, if b then 1 else 0⟩
  | .str s => some ⟨STRING_OBJ, fnv1a s⟩
  | _ => none

/-! ## Environments (store-passing)

Modelled from the spec: `{store, outer}` nodes; lookup walks outward,
`let` writes to the innermost scope, a call creates a child of the
function's captured environment.  Nodes are held in the array of `St` and
referenced by index, so `outer` indices always point at older (smaller)
entries. -/

structure EnvData where
  store : List (String × Option Obj)
  outer : Option Nat

/-- The mutable part of a run: the environment nodes of the Go heap,
addressed by index, and the serial number handed to the next allocation of
an identity-carrying object (its Go pointer). -/
structure St where
  envs : Array EnvData
  nextId : Nat

/-- Draw a fresh allocation id (one `&object.X{...}` of the Go code). -/
def allocId (st : St) : Nat × St :=
  (st.nextId, { st with nextId := st.nextId + 1 })

/-- Lookup in one store map. -/
def storeGet (s : List (String × Option Obj)) (n : String) : Option (Option Obj) :=
  match s with
  | [] => none
  | (k, v) :: rest => if k = n then some v else storeGet rest n

/-- Map write: replace the binding of the name or append a new one. -/
def storeSet (s : List (String × Option Obj)) (n : String) (v : Option Obj) :
    List (String × Option Obj) :=
  match s with
  | [] => [(n, v)]
  | (k, w) :: rest => if k = n then (n, v) :: rest else (k, w) :: storeSet rest n v

/-- Environment `Get`: walk the `outer` chain.  The fuel (callers pass the
store size) dominates the strictly decreasing chain of `outer` indices. -/
def envGet (st : St) : Nat → Nat → String → Option (Option Obj)
  | 0, _, _ => none
  | fuel + 1, ref, name =>
    match st.envs[ref]? with
    | none => none
    | some e =>
      match storeGet e.store name with
      | some v => some v
      | none =>
        match e.outer with
        | some o => envGet st fuel o name
        | none => none

/-- Environment `Set` on the store entry `ref`. -/
def envSet (st : St) (ref : Nat) (name : String) (v : Option Obj) : St :=
  match st.envs[ref]? with
  | none => st
  | some e =>
    { st with envs := st.envs.set! ref { e with store := storeSet e.store name v } }

/-- `NewEnvironment`: the single program-level environment, with the
allocation counter at zero. -/
def newEnvironmentSt : St := ⟨#[⟨[], none⟩], 0⟩

/-- Well-formed store: every `outer` link points at an older entry, so
`Get` chains are shorter than the store size. -/
def WFSt (st : St) : Prop :=
  ∀ i, (h : i < st.envs.size) → ∀ o, (st.envs[i]).outer = some o → o < i

/-! ## Evaluator (src/evaluator/evaluator.go, first revision) -/

/-- Result of one Go evaluation: a returned object (possibly the nil
object), a Go runtime panic, or exhausted model fuel. -/
inductive Outcome where
  | ok (res : Option Obj)
  | panicked (msg : String)
  | noFuel

/-- Result of `evalExpressions`. -/
inductive ListOutcome where
  | okL (objs : List (Option Obj))
  | panickedL (msg : String)
  | noFuelL

/-- Panic message of a method call on a nil interface value. -/
def nilDeref : String :=
  "runtime error: invalid memory address or nil pointer dereference"

/-- Go `isError`: non-nil and tagged `ERROR`. -/
def isError (o : Option Obj) : Bool :=
  match o with
  | some x => x.objType = ERROR_OBJ
  | none => false

/-- Go `nativeBoolToBooleanObject` (the shared singletons, as values). -/
def nativeBoolToBooleanObject (b : Bool) : Obj := .boolean b

/-- Go `unwrapReturnValue`. -/
def unwrapReturnValue : Option Obj → Option Obj
  | some (.returnV _ v) => v
  | o => o

/-- Go `isTruthy`: pointer comparison against the three singletons; every
object other than `FALSE` and `NULL` (including a nil object) hits the
truthy default. -/
def isTruthy : Option Obj → Bool
  | some .null => false
  | some (.boolean true) => true
  | some (.boolean false) => false
  | _ => true

/-- Go interface equality `left == right` as used for `==`/`!=` operands:
equal dynamic type and equal pointer.  Booleans and null are the shared
singletons and builtins are registry singletons, so those kinds compare by
value; arrays, hashes, functions and return sentinels compare by their
allocation id, which is Go's pointer — so aliased operands (for example
`let a = [1]; a == a`) compare equal and distinct allocations compare
unequal.  Pairs of different kinds have different dynamic types and
compare unequal.  Integer, string and error pairs carry no identity; the
evaluator never lets two of them reach this comparison (see the heap
identity note on `Obj`). -/
def objRefEq : Obj → Obj → Bool
  | .boolean a, .boolean b => a = b
  | .null, .null => true
  | .builtin a, .builtin b => a = b
  | .array i _, .array j _ => i = j
  | .hash i _, .hash j _ => i = j
  | .function i _ _ _, .function j _ _ _ => i = j
  | .returnV i _, .returnV j _ => i = j
  | _, _ => false

/-- Interface equality lifted to possibly-nil operands (two nil interfaces
are equal). -/
def refEq : Option Obj → Option Obj → Bool
  | none, none => true
  | none, some _ => false
  | some _, none => false
  | some a, some b => objRefEq a b

/-- Go `evalBangOperatorExpression`: singleton switch with a catch-all
`FALSE`. -/
def evalBangOperatorExpression : Option Obj → Obj
  | some (.boolean true) => .boolean false
  | some (.boolean false) => .boolean true
  | some .null => .boolean true
  | _ => .boolean false

/-- Two's-complement wrap of Go `int64` arithmetic. -/
def wrap64 (z : Int) : Int :=
  (z + 2 ^ 63) % 2 ^ 64 - 2 ^ 63

/-- Go `evalMinusPrefixOperatorExpression` (`right.Type()` dereferences a
nil operand). -/
def evalMinusPrefixOperatorExpression : Option Obj → Outcome
  | none => .panicked nilDeref
  | some r =>
    if r.objType ≠ INTEGER_OBJ then
      .ok (some (.error ("unknown operator: -" ++ r.objType)))
    else
      match r with
      | .integer v => .ok (some (.integer (wrap64 (-v))))
      | _ => .panicked "interface conversion"

/-- Go `evalPrefixExpression`. -/
def evalPrefixExpression (op : String) (right : Option Obj) : Outcome :=
  if op = "!" then .ok (some (evalBangOperatorExpression right))
  else if op = "-" then evalMinusPrefixOperatorExpression right
  else
    match right with
    | none => .panicked nilDeref
    | some r => .ok (some (.error ("unknown operator: " ++ op ++ r.objType)))

/-- Go `evalIntegerInfixExpression`: `int64` arithmetic with wrap-around;
`/` truncates toward zero and a zero divisor is the Go runtime panic. -/
def evalIntegerInfixExpression (op : String) (left right : Obj) : Outcome :=
  match left, right with
  | .integer lv, .integer rv =>
    if op = "+" then .ok (some (.integer (wrap64 (lv + rv))))
    else if op = "-" then .ok (some (.integer (wrap64 (lv - rv))))
    else if op = "*" then .ok (some (.integer (wrap64 (lv * rv))))
    else if op = "/" then
      if rv = 0 then .panicked "runtime error: integer divide by zero"
      else .ok (some (.integer (wrap64 (Int.tdiv lv rv))))
    else if op = "<" then .ok (some (nativeBoolToBooleanObject (lv < rv)))
    else if op = ">" then .ok (some (nativeBoolToBooleanObject (lv > rv)))
    else if op = "==" then .ok (some (nativeBoolToBooleanObject (lv = rv)))
    else if op = "!=" then .ok (some (nativeBoolToBooleanObject (lv ≠ rv)))
    else .ok (some (.error ("unknown operator: " ++ left.objType ++ " " ++ op
        ++ " " ++ right.objType)))
  | _, _ => .panicked "interface conversion"

/-- Go `evalStringInfixExpression`: `+` concatenates, anything else is an
unknown operator. -/
def evalStringInfixExpression (op : String) (left right : Obj) : Outcome :=
  if op ≠ "+" then
    .ok (some (.error ("unknown operator: " ++ left.objType ++ " " ++ op
        ++ " " ++ right.objType)))
  else
    match left, right with
    | .str lv, .str rv => .ok (some (.str (lv ++ rv)))
    | _, _ => .panicked "interface conversion"

/-- Cases of Go `evalInfixExpression` after the string/string and
integer/integer dispatch: `==`/`!=` compare by reference identity (a nil
right operand compares unequal to the non-nil left one without panicking),
then differing types are a type mismatch and same types an unknown
operator, both dereferencing the right operand. -/
def evalInfixRest (op : String) (l : Obj) (right : Option Obj) : Outcome :=
  if op = "==" then .ok (some (nativeBoolToBooleanObject (refEq (some l) right)))
  else if op = "!=" then .ok (some (nativeBoolToBooleanObject (! refEq (some l) right)))
  else
    match right with
    | none => .panicked nilDeref
    | some r =>
      if l.objType ≠ r.objType then
        .ok (some (.error ("type mismatch: " ++ l.objType ++ " " ++ op
            ++ " " ++ r.objType)))
      else
        .ok (some (.error ("unknown operator: " ++ l.objType ++ " " ++ op
            ++ " " ++ r.objType)))

/-- Go `evalInfixExpression`: the switch cases in source order, with the
short-circuit evaluation of each `left.Type() == … && right.Type() == …`
condition made explicit (a nil operand panics exactly where Go would call
`Type()` on it). -/
def evalInfixExpression (op : String) (left right : Option Obj) : Outcome :=
  match left with
  | none => .panicked nilDeref
  | some l =>
    if l.objType = STRING_OBJ then
      match right with
      | none => .panicked nilDeref
      | some r =>
        if r.objType = STRING_OBJ then evalStringInfixExpression op l r
        else evalInfixRest op l (some r)
    else if l.objType = INTEGER_OBJ then
      match right with
      | none => .panicked nilDeref
      | some r =>
        if r.objType = INTEGER_OBJ then evalIntegerInfixExpression op l r
        else evalInfixRest op l (some r)
    else evalInfixRest op l right

/-- Go `evalArrayIndexExpression`: `idx` below zero or above `len-1`
yields `NULL`, otherwise the element. -/
def evalArrayIndexExpression (arr index : Obj) : Outcome :=
  match arr, index with
  | .array _ elems, .integer idx =>
    let mx : Int := (elems.length : Int) - 1
    if idx < 0 ∨ idx > mx then .ok (some .null)
    else .ok (elems.getD idx.toNat none)
  | _, _ => .panicked "interface conversion"

/-- Map lookup in a hash value. -/
def hashPairsGet (ps : List (HashKey × HashPair)) (k : HashKey) : Option HashPair :=
  match ps with
  | [] => none
  | (k2, pr) :: rest => if k2 = k then some pr else hashPairsGet rest k

/-- Map write in a hash value (replace or append). -/
def hashPairsSet (ps : List (HashKey × HashPair)) (k : HashKey) (pr : HashPair) :
    List (HashKey × HashPair) :=
  match ps with
  | [] => [(k, pr)]
  | (k2, pr2) :: rest =>
    if k2 = k then (k, pr) :: rest else (k2, pr2) :: hashPairsSet rest k pr

/-- Go `evalHashIndexExpression` (a nil index fails the `Hashable`
assertion and then panics formatting `index.Type()`). -/
def evalHashIndexExpression (h index : Option Obj) : Outcome :=
  match h with
  | some (.hash _ ps) =>
    match index with
    | none => .panicked nilDeref
    | some i =>
      match hashKeyOf i with
      | none => .ok (some (.error ("unusable as hash key: " ++ i.objType)))
      | some k =>
        match hashPairsGet ps k with
        | none => .ok (some .null)
        | some pr => .ok pr.value
  | _ => .panicked "interface conversion"

/-- Go `evalIndexExpression`: the `&&` conditions of the switch evaluate
left to right, so the exact operand whose `Type()` Go calls on nil
determines the panic. -/
def evalIndexExpression (left index : Option Obj) : Outcome :=
  match left with
  | none => .panicked nilDeref
  | some l =>
    if l.objType = ARRAY_OBJ then
      match index with
      | none => .panicked nilDeref
      | some i =>
        if i.objType = INTEGER_OBJ then evalArrayIndexExpression l i
        else .ok (some (.error ("index operator not supported: " ++ l.objType)))
    else if l.objType = HASH_OBJ then evalHashIndexExpression (some l) index
    else .ok (some (.error ("index operator not supported: " ++ l.objType)))

/-! ## Builtins

Modelled from the spec (section 4.5): the registry file is absent from
`src/`.  `puts` writes to standard output, which this embedding does not
track; its `NULL` result is kept.  Single quotes of the spec's messages are
rendered as plain characters. -/

def builtinNames : List String := ["len", "first", "last", "rest", "push", "puts"]

/-- The fixed builtin registry consulted by `evalIdentifier`; each entry is
one shared `Builtin` object. -/
def builtinsLookup (name : String) : Option Obj :=
  if name ∈ builtinNames then some (.builtin name) else none

def wrongArgCount (got : Nat) (want : Nat) : Obj :=
  .error ("wrong number of arguments. got=" ++ Nat.repr got ++ ", want="
      ++ Nat.repr want)

/-- Behaviour of each builtin on an argument slice (a nil argument panics
where its `Type()` would be formatted); `rest` and `push` allocate a fresh
array, so they draw an id from the store. -/
def applyBuiltin (name : String) (args : List (Option Obj)) (st : St) :
    Outcome × St :=
  if name = "len" then
    if args.length ≠ 1 then (.ok (some (wrongArgCount args.length 1)), st)
    else
      match args.headD none with
      | some (.str s) => (.ok (some (.integer (s.utf8ByteSize : Nat))), st)
      | some (.array _ elems) => (.ok (some (.integer (elems.length : Nat))), st)
      | some a =>
        (.ok (some (.error ("argument to \x27len\x27 not supported, got " ++ a.objType))), st)
      | none => (.panicked nilDeref, st)
  else if name = "first" then
    if args.length ≠ 1 then (.ok (some (wrongArgCount args.length 1)), st)
    else
      match args.headD none with
      | some (.array _ elems) =>
        if elems.length > 0 then (.ok (elems.headD none), st) else (.ok (some .null), st)
      | some a =>
        (.ok (some (.error ("argument to \x27first\x27 must be ARRAY, got " ++ a.objType))), st)
      | none => (.panicked nilDeref, st)
  else if name = "last" then
    if args.length ≠ 1 then (.ok (some (wrongArgCount args.length 1)), st)
    else
      match args.headD none with
      | some (.array _ elems) =>
        if elems.length > 0 then (.ok (elems.getLastD none), st) else (.ok (some .null), st)
      | some a =>
        (.ok (some (.error ("argument to \x27last\x27 must be ARRAY, got " ++ a.objType))), st)
      | none => (.panicked nilDeref, st)
  else if name = "rest" then
    if args.length ≠ 1 then (.ok (some (wrongArgCount args.length 1)), st)
    else
      match args.headD none with
      | some (.array _ elems) =>
        if elems.length > 0 then
          let (i, st2) := allocId st
          (.ok (some (.array i elems.tail)), st2)
        else (.ok (some .null), st)
      | some a =>
        (.ok (some (.error ("argument to \x27rest\x27 must be ARRAY, got " ++ a.objType))), st)
      | none => (.panicked nilDeref, st)
  else if name = "push" then
    if args.length ≠ 2 then (.ok (some (wrongArgCount args.length 2)), st)
    else
      match args.headD none with
      | some (.array _ elems) =>
        let (i, st2) := allocId st
        (.ok (some (.array i (elems ++ [args.getD 1 none]))), st2)
      | some a =>
        (.ok (some (.error ("argument to \x27push\x27 must be ARRAY, got " ++ a.objType))), st)
      | none => (.panicked nilDeref, st)
  else if name = "puts" then (.ok (some .null), st)
  else (.panicked "unknown builtin", st)

/-- Go `evalIdentifier`: the environment chain first, then the builtin
registry, then the unbound-identifier error. -/
def evalIdentifierF (st : St) (env : Nat) (name : String) : Option Obj :=
  match envGet st st.envs.size env name with
  | some v => v
  | none =>
    match builtinsLookup name with
    | some b => some b
    | none => some (.error ("identifier not found: " ++ name))

/-- Go `extendFunctionEnv`: a child of the captured environment with the
parameters bound positionally; too few arguments is the Go index-out-of-
range panic (`none`). -/
def bindParamsLoop : List String → List (Option Obj) →
    List (String × Option Obj) → Option (List (String × Option Obj))
  | [], _, store => some store
  | _ :: _, [], _ => none
  | prm :: ps, a :: as, store => bindParamsLoop ps as (storeSet store prm a)

def extendFunctionEnv (params : List String) (fnEnv : Nat)
    (args : List (Option Obj)) (st : St) : Option (Nat × St) :=
  match bindParamsLoop params args [] with
  | none => none
  | some store =>
    some (st.envs.size, { st with envs := st.envs.push ⟨store, some fnEnv⟩ })

mutual

/-- The `Eval` type switch restricted to expressions.  Fuel strictly
decreases into every recursive evaluation. -/
def evalExpr : Nat → Expr → Nat → St → Outcome × St
  | 0, _, _, st => (.noFuel, st)
  | fuel + 1, e, env, st =>
    match e with
    | .nilE => (.ok none, st)
    | .intLit v => (.ok (some (.integer v)), st)
    | .boolLit b => (.ok (some (nativeBoolToBooleanObject b)), st)
    | .strLit s => (.ok (some (.str s)), st)
    | .ident name => (.ok (evalIdentifierF st env name), st)
    | .prefixE op right =>
      match evalExpr fuel right env st with
      | (.ok r, st2) =>
        if isError r then (.ok r, st2) else (evalPrefixExpression op r, st2)
      | other => other
    | .infixE op left right =>
      match evalExpr fuel left env st with
      | (.ok l, st2) =>
        if isError l then (.ok l, st2)
        else
          match evalExpr fuel right env st2 with
          | (.ok r, st3) =>
            if isError r then (.ok r, st3) else (evalInfixExpression op l r, st3)
          | other => other
      | other => other
    | .ifE cond cons alt =>
      match evalExpr fuel cond env st with
      | (.ok c, st2) =>
        if isError c then (.ok c, st2)
        else if isTruthy c then evalBlockStatement fuel cons none env st2
        else
          match alt with
          | some b => evalBlockStatement fuel b none env st2
          | none => (.ok (some .null), st2)
      | other => other
    | .funcLit params body =>
      let (i, st2) := allocId st
      (.ok (some (.function i params body env)), st2)
    | .arrayLit els =>
      match evalExpressions fuel els [] env st with
      | (.okL l, st2) =>
        if l.length = 1 ∧ isError (l.headD none) then (.ok (l.headD none), st2)
        else
          let (i, st3) := allocId st2
          (.ok (some (.array i l)), st3)
      | (.panickedL m, st2) => (.panicked m, st2)
      | (.noFuelL, st2) => (.noFuel, st2)
    | .indexE left index =>
      match evalExpr fuel left env st with
      | (.ok l, st2) =>
        if isError l then (.ok l, st2)
        else
          match evalExpr fuel index env st2 with
          | (.ok i, st3) =>
            if isError i then (.ok i, st3) else (evalIndexExpression l i, st3)
          | other => other
      | other => other
    | .hashLit pairs => evalHashPairsLoop fuel pairs [] env st
    | .callE fnE argsE =>
      match evalExpr fuel fnE env st with
      | (.ok fnV, st2) =>
        if isError fnV then (.ok fnV, st2)
        else
          match evalExpressions fuel argsE [] env st2 with
          | (.okL l, st3) =>
            if l.length = 1 ∧ isError (l.headD none) then (.ok (l.headD none), st3)
            else applyFunction fuel fnV l st3
          | (.panickedL m, st3) => (.panicked m, st3)
          | (.noFuelL, st3) => (.noFuel, st3)
      | other => other

  termination_by structural fuel => fuel

/-- The `Eval` type switch restricted to statements; the `LetStatement`
case binds the evaluated value and falls through to the final
`return nil`. -/
def evalStmt : Nat → Stmt → Nat → St → Outcome × St
  | 0, _, _, st => (.noFuel, st)
  | fuel + 1, s, env, st =>
    match s with
    | .letS name value =>
      match evalExpr fuel value env st with
      | (.ok v, st2) =>
        if isError v then (.ok v, st2) else (.ok none, envSet st2 env name v)
      | other => other
    | .returnS value =>
      match evalExpr fuel value env st with
      | (.ok v, st2) =>
        if isError v then (.ok v, st2)
        else
          let (i, st3) := allocId st2
          (.ok (some (.returnV i v)), st3)
      | other => other
    | .exprS e => evalExpr fuel e env st
    | .blockS stmts => evalBlockStatement fuel stmts none env st
    | .nilLetS => (.panicked nilDeref, st)

  termination_by structural fuel => fuel

/-- Go `evalProgram`: run the statements in order (`acc` is the loop
variable `result`, initially nil); an `Error` returns immediately and a
`ReturnValue` returns its unwrapped value. -/
def evalProgram : Nat → List Stmt → Option Obj → Nat → St → Outcome × St
  | 0, _, _, _, st => (.noFuel, st)
  | _ + 1, [], acc, _, st => (.ok acc, st)
  | fuel + 1, s :: rest, _, env, st =>
    match evalStmt fuel s env st with
    | (.ok r, st2) =>
      match r with
      | some (.error m) => (.ok (some (.error m)), st2)
      | some (.returnV _ v) => (.ok v, st2)
      | _ => evalProgram fuel rest r env st2
    | other => other

  termination_by structural fuel => fuel

/-- Go `evalBlockStatement`: run the statements in order (`acc` is the loop
variable `result`, initially nil); a non-nil result whose type is
`RETURN_VALUE` or `ERROR` is returned as it is, without unwrapping. -/
def evalBlockStatement : Nat → List Stmt → Option Obj → Nat → St → Outcome × St
  | 0, _, _, _, st => (.noFuel, st)
  | _ + 1, [], acc, _, st => (.ok acc, st)
  | fuel + 1, s :: rest, _, env, st =>
    match evalStmt fuel s env st with
    | (.ok r, st2) =>
      match r with
      | some o =>
        if o.objType = RETURN_VALUE_OBJ ∨ o.objType = ERROR_OBJ then (.ok (some o), st2)
        else evalBlockStatement fuel rest (some o) env st2
      | none => evalBlockStatement fuel rest none env st2
    | other => other

  termination_by structural fuel => fuel

/-- Go `evalExpressions`: evaluate left to right, short-circuiting to the
one-element error slice. -/
def evalExpressions : Nat → List Expr → List (Option Obj) → Nat → St →
    ListOutcome × St
  | 0, _, _, _, st => (.noFuelL, st)
  | _ + 1, [], acc, _, st => (.okL acc, st)
  | fuel + 1, e :: rest, acc, env, st =>
    match evalExpr fuel e env st with
    | (.ok v, st2) =>
      if isError v then (.okL [v], st2)
      else evalExpressions fuel rest (acc ++ [v]) env st2
    | (.panicked m, st2) => (.panickedL m, st2)
    | (.noFuel, st2) => (.noFuelL, st2)

  termination_by structural fuel => fuel

/-- The loop of Go `evalHashLiteral`: evaluate each key, require it
hashable, evaluate the value, insert under its `HashKey`.  The Go AST holds
the pairs in a map whose iteration order is unspecified; this embedding
fixes source order (no property proved here depends on the order). -/
def evalHashPairsLoop : Nat → List (Expr × Expr) → List (HashKey × HashPair) →
    Nat → St → Outcome × St
  | 0, _, _, _, st => (.noFuel, st)
  | _ + 1, [], acc, _, st =>
    let (i, st2) := allocId st
    (.ok (some (.hash i acc)), st2)
  | fuel + 1, (kE, vE) :: rest, acc, env, st =>
    match evalExpr fuel kE env st with
    | (.ok k, st2) =>
      if isError k then (.ok k, st2)
      else
        match k with
        | none => (.panicked nilDeref, st2)
        | some kObj =>
          match hashKeyOf kObj with
          | none => (.ok (some (.error ("unusable as hash key: " ++ kObj.objType))), st2)
          | some hk =>
            match evalExpr fuel vE env st2 with
            | (.ok v, st3) =>
              if isError v then (.ok v, st3)
              else evalHashPairsLoop fuel rest (hashPairsSet acc hk (.mk kObj v)) env st3
            | other => other
    | other => other

  termination_by structural fuel => fuel

/-- Go `applyFunction`: user functions run their body in a fresh enclosed
environment and unwrap a return sentinel; builtins are invoked on the
argument slice; anything else (including a nil callee, whose `Type()` call
panics) is a `not a function` error. -/
def applyFunction : Nat → Option Obj → List (Option Obj) → St → Outcome × St
  | 0, _, _, st => (.noFuel, st)
  | fuel + 1, fn, args, st =>
    match fn with
    | some (.function _ params body fnEnv) =>
      match extendFunctionEnv params fnEnv args st with
      | none => (.panicked "runtime error: index out of range", st)
      | some (ref, st2) =>
        match evalBlockStatement fuel body none ref st2 with
        | (.ok r, st3) => (.ok (unwrapReturnValue r), st3)
        | other => other
    | some (.builtin name) => applyBuiltin name args st
    | some other => (.ok (some (.error ("not a function: " ++ other.objType))), st)
    | none => (.panicked nilDeref, st)

  termination_by structural fuel => fuel

end

/-- Full pipeline on one source string: lex, parse, then evaluate the
program in a fresh environment, exactly the `Eval(program, env)` call of
the REPL contract.  The fuel is far beyond what the concrete programs of
the theorems consume (insufficient fuel could only produce `noFuel`, never
a wrong value). -/
def interp (s : String) : Outcome :=
  (evalProgram 1000 (parseSource s).1 none 0 newEnvironmentSt).1

/-! ## Helper lemmas -/

theorem storeGet_storeSet_ne (s : List (String × Option Obj)) (k n : String)
    (v : Option Obj) (h : k ≠ n) : storeGet (storeSet s k v) n = storeGet s n := by
  induction s with
  | nil => simp [storeSet, storeGet, h]
  | cons hd tl ih =>
    obtain ⟨k2, w⟩ := hd
    by_cases hk : k2 = k
    · subst hk
      simp [storeSet, storeGet, h]
    · simp [storeSet, storeGet, hk]
      by_cases hn : k2 = n <;> simp [hn, ih]

theorem storeGet_bindParamsLoop (ps : List String) (args : List (Option Obj))
    (store store2 : List (String × Option Obj)) (name : String)
    (hbind : bindParamsLoop ps args store = some store2) (hname : name ∉ ps) :
    storeGet store2 name = storeGet store name := by
  induction ps generalizing args store with
  | nil =>
    simp [bindParamsLoop] at hbind
    subst hbind; rfl
  | cons prm ps2 ih =>
    cases args with
    | nil => simp [bindParamsLoop] at hbind
    | cons a as =>
      simp only [bindParamsLoop] at hbind
      simp only [List.mem_cons, not_or] at hname
      rw [ih as _ hbind hname.2,
        storeGet_storeSet_ne store prm name a (Ne.symm hname.1)]

theorem envGet_push (st : St) (d : EnvData) (hwf : WFSt st) :
    ∀ (fuel e : Nat), e < st.envs.size → ∀ name,
      envGet { st with envs := st.envs.push d } fuel e name =
        envGet st fuel e name := by
  intro fuel
  induction fuel with
  | zero => intro e _ name; rfl
  | succ fuel ih =>
    intro e he name
    have harr : (st.envs.push d)[e]? = some (st.envs[e]) :=
      Array.getElem?_push_lt _ _ _ he
    have harr2 : st.envs[e]? = some (st.envs[e]) := Array.getElem?_eq_getElem he
    simp only [envGet, harr, harr2]
    cases hs : storeGet (st.envs[e]).store name with
    | some v => simp [hs]
    | none =>
      cases ho : (st.envs[e]).outer with
      | none => simp [hs, ho]
      | some o =>
        have hlt : o < e := hwf e he o ho
        simp only [hs, ho]
        exact ih o (Nat.lt_trans hlt he) name

/-- Element access through `drop`: the character the lexer reads at an
index is the head of the remaining input. -/
theorem getD_eq_headD_drop (input : List Char) :
    ∀ (n : Nat) (d : Char), input.getD n d = (input.drop n).headD d := by
  induction input with
  | nil => intro n d; cases n <;> rfl
  | cons c rest ih =>
    intro n d
    cases n with
    | zero => rfl
    | succ n => simp only [List.getD_cons_succ, List.drop_succ_cons, ih n d]

theorem skipWhitespace_of_not (l : Lexer)
    (h : ¬(l.ch = ' ' ∨ l.ch = '\t' ∨ l.ch = '\n' ∨ l.ch = '\r')) :
    ∀ fuel, skipWhitespace fuel l = l := by
  intro fuel
  cases fuel <;> simp [skipWhitespace, h]

/-- The string-reading loop on quote-free, nul-free remaining input runs to
the end of the input and stops on the synthetic byte 0. -/
theorem readStringLoop_unterminated (cs : List Char) :
    ∀ (l : Lexer) (fuel : Nat), cs.contains '"' = false → cs.contains nulChar = false →
      l.input.drop l.readPosition = cs → l.readPosition ≤ l.input.length →
      cs.length < fuel →
      readStringLoop fuel l =
        ⟨l.input, l.input.length, l.input.length + 1, nulChar⟩ := by
  induction cs with
  | nil =>
    intro l fuel _ _ hdrop hle hfuel
    have hrp : l.input.length ≤ l.readPosition := List.drop_eq_nil_iff.mp hdrop
    have heq : l.readPosition = l.input.length := Nat.le_antisymm hle hrp
    have hrc : readChar l = ⟨l.input, l.input.length, l.input.length + 1, nulChar⟩ := by
      simp only [readChar]
      rw [if_pos (by omega : l.readPosition ≥ l.input.length), heq]
    match fuel, hfuel with
    | fuel + 1, _ =>
      simp [readStringLoop, hrc]
  | cons c cs2 ih =>
    intro l fuel hq hn hdrop hle hfuel
    simp only [List.contains_cons, Bool.or_eq_false_iff, beq_eq_false_iff_ne, ne_eq] at hq hn
    have hlen : (l.input.drop l.readPosition).length = cs2.length + 1 := by
      rw [hdrop]; rfl
    rw [List.length_drop] at hlen
    have hlt : l.readPosition < l.input.length := by omega
    have hch : l.input.getD l.readPosition nulChar = c := by
      rw [getD_eq_headD_drop, hdrop]; rfl
    have hdrop2 : l.input.drop (l.readPosition + 1) = cs2 := by
      have := List.drop_drop 1 l.readPosition l.input
      rw [← this, hdrop]; rfl
    have hrc : readChar l = ⟨l.input, l.readPosition, l.readPosition + 1, c⟩ := by
      simp only [readChar]
      rw [if_neg (by omega : ¬ l.readPosition ≥ l.input.length), hch]
    match fuel, hfuel with
    | fuel + 1, hfuel =>
      have hc1 : ¬(c = '"' ∨ c = nulChar) := by
        push_neg
        exact ⟨fun h => hq.1 h.symm, fun h => hn.1 h.symm⟩
      simp only [readStringLoop, hrc]
      rw [if_neg hc1]
      exact ih _ fuel hq.2 hn.2 hdrop2 hlt
        (by simp only [List.length_cons] at hfuel; omega)

/-- The string-reading loop on quote-free, nul-free input followed by a
closing quote stops exactly on the quote. -/
theorem readStringLoop_terminated (cs : List Char) :
    ∀ (l : Lexer) (fuel : Nat) (tail : List Char),
      cs.contains '"' = false → cs.contains nulChar = false →
      l.input.drop l.readPosition = cs ++ '"' :: tail →
      cs.length < fuel →
      readStringLoop fuel l =
        ⟨l.input, l.readPosition + cs.length, l.readPosition + cs.length + 1, '"'⟩ := by
  induction cs with
  | nil =>
    intro l fuel tail _ _ hdrop hfuel
    have hlen : (l.input.drop l.readPosition).length = tail.length + 1 := by
      rw [hdrop]; rfl
    rw [List.length_drop] at hlen
    have hlt : l.readPosition < l.input.length := by omega
    have hch : l.input.getD l.readPosition nulChar = '"' := by
      rw [getD_eq_headD_drop, hdrop]; rfl
    have hrc : readChar l = ⟨l.input, l.readPosition, l.readPosition + 1, '"'⟩ := by
      simp only [readChar]
      rw [if_neg (by omega : ¬ l.readPosition ≥ l.input.length), hch]
    match fuel, hfuel with
    | fuel + 1, _ =>
      simp [readStringLoop, hrc]
  | cons c cs2 ih =>
    intro l fuel tail hq hn hdrop hfuel
    simp only [List.contains_cons, Bool.or_eq_false_iff, beq_eq_false_iff_ne, ne_eq] at hq hn
    have hlen : (l.input.drop l.readPosition).length = (cs2 ++ '"' :: tail).length + 1 := by
      rw [hdrop]; rfl
    rw [List.length_drop] at hlen
    have hlt : l.readPosition < l.input.length := by omega
    have hch : l.input.getD l.readPosition nulChar = c := by
      rw [getD_eq_headD_drop, hdrop]; rfl
    have hdrop2 : l.input.drop (l.readPosition + 1) = cs2 ++ '"' :: tail := by
      have := List.drop_drop 1 l.readPosition l.input
      rw [← this, hdrop]; rfl
    have hrc : readChar l = ⟨l.input, l.readPosition, l.readPosition + 1, c⟩ := by
      simp only [readChar]
      rw [if_neg (by omega : ¬ l.readPosition ≥ l.input.length), hch]
    match fuel, hfuel with
    | fuel + 1, hfuel =>
      have hc1 : ¬(c = '"' ∨ c = nulChar) := by
        push_neg
        exact ⟨fun h => hq.1 h.symm, fun h => hn.1 h.symm⟩
      simp only [readStringLoop, hrc]
      rw [if_neg hc1]
      rw [ih _ fuel tail hq.2 hn.2 hdrop2
        (by simp only [List.length_cons] at hfuel; omega)]
      simp only [Lexer.mk.injEq, List.length_cons, true_and, and_true]
      omega

/-- On a nul current character the lexer emits the `EOF` token. -/
theorem nextTokenL_of_ch_nul (l : Lexer) (h : l.ch = nulChar) :
    nextTokenL l = (⟨.EOF, ""⟩, readChar l) := by
  have hsw : skipWhitespace (l.input.length + 2) l = l :=
    skipWhitespace_of_not l (by rw [h]; decide) _
  simp only [nextTokenL, hsw]
  rw [h]
  rfl

/-! ## Claims -/

/-- C1: evaluating a block returns any result of type `RETURN_VALUE` or
`ERROR` as it stands, without unwrapping, so a `return` in the innermost of
nested blocks terminates every enclosing block; the nested-return program
`if (10 > 1) ... ` evaluates to Integer 10, the sentinel being unwrapped at
the program boundary. -/
theorem claim_C1 :
    (∀ (fuel : Nat) (s : Stmt) (rest : List Stmt) (acc : Option Obj) (env : Nat)
        (st : St) (r : Obj) (st2 : St),
      evalStmt fuel s env st = (.ok (some r), st2) →
      r.objType = RETURN_VALUE_OBJ ∨ r.objType = ERROR_OBJ →
      evalBlockStatement (fuel + 1) (s :: rest) acc env st = (.ok (some r), st2)) ∧
    interp "if (10 > 1) \x7b if (10 > 1) \x7b return 10; \x7d return 1; \x7d" =
      .ok (some (.integer 10)) := by
  constructor
  · intro fuel s rest acc env st r st2 hEval hTy
    simp only [evalBlockStatement, hEval]
    rw [if_pos hTy]
  · rfl

theorem claim_C1_witness :
    evalStmt 5 (.returnS (.intLit 7)) 0 newEnvironmentSt =
      (.ok (some (.returnV 0 (some (.integer 7)))), St.mk #[⟨[], none⟩] 1) ∧
    evalBlockStatement 6 [.returnS (.intLit 7), .exprS (.intLit 1)] none 0 newEnvironmentSt =
      (.ok (some (.returnV 0 (some (.integer 7)))), St.mk #[⟨[], none⟩] 1) := by
  refine ⟨rfl, ?_⟩
  exact claim_C1.1 5 (.returnS (.intLit 7)) [.exprS (.intLit 1)] none 0 newEnvironmentSt
    (.returnV 0 (some (.integer 7))) (St.mk #[⟨[], none⟩] 1) rfl (Or.inl rfl)

/-- C4: integer division truncates toward zero for a non-zero divisor (the
`wrap64` accounts for the single overflowing quotient), but a zero divisor
is a Go runtime panic that crashes the interpreter, as the evaluation of
`5 / 0` shows — the code violates the spec's requirement not to crash. -/
theorem claim_C4 :
    (∀ lv rv : Int, evalIntegerInfixExpression "/" (.integer lv) (.integer rv) =
      if rv = 0 then .panicked "runtime error: integer divide by zero"
      else .ok (some (.integer (wrap64 (Int.tdiv lv rv))))) ∧
    interp "5 / 0;" = .panicked "runtime error: integer divide by zero" := by
  exact ⟨fun lv rv => rfl, rfl⟩

/-- C8: array indexing returns `NULL` below index 0 and above `len - 1`,
and the stored element otherwise; both `[1, 2, 3][3]` and `[1, 2, 3][-1]`
evaluate to Null. -/
theorem claim_C8 :
    (∀ (i : Nat) (elems : List (Option Obj)) (idx : Int),
      evalArrayIndexExpression (.array i elems) (.integer idx) =
        if idx < 0 ∨ (elems.length : Int) - 1 < idx then .ok (some .null)
        else .ok (elems.getD idx.toNat none)) ∧
    interp "[1, 2, 3][3]" = .ok (some .null) ∧
    interp "[1, 2, 3][-1]" = .ok (some .null) := by
  exact ⟨fun i elems idx => rfl, rfl, rfl⟩

/-- C10: the `LetStatement` case of `Eval` binds the evaluated value and
falls through to `return nil`, the host's absent value — not the `NULL`
singleton — so a program ending in a `let` statement evaluates to nil. -/
theorem claim_C10 :
    (∀ (fuel : Nat) (name : String) (value : Expr) (env : Nat) (st : St)
        (r : Option Obj) (st2 : St),
      evalExpr fuel value env st = (.ok r, st2) → isError r = false →
      evalStmt (fuel + 1) (.letS name value) env st = (.ok none, envSet st2 env name r)) ∧
    interp "let x = 5;" = .ok none := by
  constructor
  · intro fuel name value env st r st2 hEval hErr
    simp [evalStmt, hEval, hErr]
  · rfl

/-- One unfolding of the token-collection loop. -/
theorem tokenizeLoop_succ (fuel : Nat) (l : Lexer) :
    tokenizeLoop (fuel + 1) l =
      (if (nextTokenL l).1.ttype = .EOF then [(nextTokenL l).1]
       else (nextTokenL l).1 :: tokenizeLoop fuel (nextTokenL l).2) := rfl

/-- C9: on a double quote the lexer consumes characters until the next
quote or end of input and returns a STRING token whose literal excludes the
quotes; when the string is never closed, the token carries everything up to
EOF and the stream holds no ILLEGAL token, only the STRING and EOF. -/
theorem claim_C9 :
    (∀ (cs tail : List Char), cs.contains '"' = false → cs.contains nulChar = false →
      (readString (newLexer ('"' :: (cs ++ '"' :: tail)))).1 = String.mk cs) ∧
    (∀ cs : List Char, cs.contains '"' = false → cs.contains nulChar = false →
      tokenize (String.mk ('"' :: cs)) = [⟨.STRING, String.mk cs⟩, ⟨.EOF, ""⟩]) := by
  constructor
  · intro cs tail hq hn
    have hl0 : newLexer ('"' :: (cs ++ '"' :: tail)) =
        ⟨'"' :: (cs ++ '"' :: tail), 0, 1, '"'⟩ := rfl
    rw [hl0]
    have hloop := readStringLoop_terminated cs
      ⟨'"' :: (cs ++ '"' :: tail), 0, 1, '"'⟩
      (('"' :: (cs ++ '"' :: tail)).length + 2) tail hq hn rfl
      (by simp [List.length_append]; omega)
    simp only [readString, hloop]
    simp only [goSlice]
    congr 1
    rw [show (1 + cs.length) = cs.length + 1 from by omega]
    rw [List.take_succ_cons]
    simp only [List.drop_succ_cons, List.drop_zero]
    rw [List.take_left]
  · intro cs hq hn
    have hloop := readStringLoop_unterminated cs
      ⟨'"' :: cs, 0, 1, '"'⟩ (('"' :: cs).length + 2) hq hn rfl
      (by simp) (by simp; omega)
    have hrs : readString ⟨'"' :: cs, 0, 1, '"'⟩ =
        (String.mk cs,
         ⟨'"' :: cs, ('"' :: cs).length, ('"' :: cs).length + 1, nulChar⟩) := by
      simp only [readString, hloop]
      simp [goSlice]
    have hstep1 : nextTokenL ⟨'"' :: cs, 0, 1, '"'⟩ =
        (⟨.STRING, String.mk cs⟩,
         ⟨'"' :: cs, ('"' :: cs).length + 1, ('"' :: cs).length + 2, nulChar⟩) := by
      have hsplit : nextTokenL ⟨'"' :: cs, 0, 1, '"'⟩ =
          (⟨.STRING, (readString ⟨'"' :: cs, 0, 1, '"'⟩).1⟩,
           readChar (readString ⟨'"' :: cs, 0, 1, '"'⟩).2) := rfl
      rw [hsplit, hrs]
      simp only [readChar]
      rw [if_pos (Nat.le_succ (('"' :: cs).length))]
    have hstep2 := nextTokenL_of_ch_nul
      ⟨'"' :: cs, ('"' :: cs).length + 1, ('"' :: cs).length + 2, nulChar⟩ rfl
    have hconv : tokenize (String.mk ('"' :: cs)) =
        tokenizeLoop (('"' :: cs).length + 2) ⟨'"' :: cs, 0, 1, '"'⟩ := rfl
    rw [hconv]
    rw [tokenizeLoop_succ (('"' :: cs).length + 1) ⟨'"' :: cs, 0, 1, '"'⟩]
    simp only [hstep1]
    rw [tokenizeLoop_succ (('"' :: cs).length) _]
    simp only [hstep2]
    rfl

theorem claim_C9_witness :
    (['a', 'b', 'c'] : List Char).contains '"' = false ∧
    (['a', 'b', 'c'] : List Char).contains nulChar = false ∧
    (readString (newLexer ('"' :: (['a', 'b', 'c'] ++ '"' :: ['x'])))).1 =
      String.mk ['a', 'b', 'c'] ∧
    tokenize (String.mk ('"' :: ['a', 'b', 'c'])) =
      [⟨.STRING, String.mk ['a', 'b', 'c']⟩, ⟨.EOF, ""⟩] := by
  refine ⟨by decide, by decide, ?_, ?_⟩
  · exact claim_C9.1 ['a', 'b', 'c'] ['x'] (by decide) (by decide)
  · exact claim_C9.2 ['a', 'b', 'c'] (by decide) (by decide)

theorem wf_newEnvironmentSt : WFSt newEnvironmentSt := by
  intro i h o ho
  have hi : i = 0 := by
    have h1 : i < 1 := h
    omega
  subst hi
  exact Option.noConfusion ho

/-- C2: a function literal evaluated in environment E produces a Function
value binding E; applying it runs the body in a fresh environment enclosed
in E, in which every name other than a parameter resolves exactly as in E
(so free variables resolve via E from any caller); the closure program
`newAdder` evaluates to Integer 5. -/
theorem claim_C2 :
    (∀ (fuel : Nat) (params : List String) (body : List Stmt) (env : Nat) (st : St),
      evalExpr (fuel + 1) (.funcLit params body) env st =
        (.ok (some (.function st.nextId params body env)),
         { st with nextId := st.nextId + 1 })) ∧
    (∀ (params : List String) (args : List (Option Obj)) (st : St) (fnEnv : Nat)
        (name : String) (ref : Nat) (st2 : St),
      extendFunctionEnv params fnEnv args st = some (ref, st2) →
      WFSt st → fnEnv < st.envs.size → name ∉ params →
      envGet st2 st2.envs.size ref name = envGet st st.envs.size fnEnv name) ∧
    interp "let newAdder = fn(x) \x7b fn(y) \x7b x + y \x7d; \x7d; let addTwo = newAdder(2); addTwo(3);" =
      .ok (some (.integer 5)) := by
  refine ⟨fun fuel params body env st => rfl, ?_, rfl⟩
  intro params args st fnEnv name ref st2 hext hwf hlt hname
  unfold extendFunctionEnv at hext
  cases hbind : bindParamsLoop params args [] with
  | none => rw [hbind] at hext; exact Option.noConfusion hext
  | some store =>
    rw [hbind] at hext
    simp only [Option.some.injEq, Prod.mk.injEq] at hext
    obtain ⟨href, hst2⟩ := hext
    subst href
    subst hst2
    have hstoreg : storeGet store name = none := by
      rw [storeGet_bindParamsLoop params args [] store name hbind hname]; rfl
    have hsize : ({ st with envs := st.envs.push ⟨store, some fnEnv⟩ } : St).envs.size =
        st.envs.size + 1 := by
      simp
    rw [hsize]
    have hglast : ({ st with envs := st.envs.push ⟨store, some fnEnv⟩ } : St).envs[st.envs.size]? =
        some ⟨store, some fnEnv⟩ := Array.getElem?_push_eq st.envs ⟨store, some fnEnv⟩
    simp only [envGet, hglast, hstoreg]
    exact envGet_push st ⟨store, some fnEnv⟩ hwf st.envs.size fnEnv hlt name

theorem claim_C2_witness :
    evalExpr 1 (.funcLit ["x"] []) 0 newEnvironmentSt =
      (.ok (some (.function 0 ["x"] [] 0)), St.mk #[⟨[], none⟩] 1) ∧
    envGet (St.mk #[⟨[], none⟩, ⟨[("x", some (.integer 2))], some 0⟩] 0) 2 1 "y" =
      envGet newEnvironmentSt 1 0 "y" := by
  constructor
  · exact claim_C2.1 0 ["x"] [] 0 newEnvironmentSt
  · exact claim_C2.2.1 ["x"] [some (.integer 2)] newEnvironmentSt 0 "y" 1
      (St.mk #[⟨[], none⟩, ⟨[("x", some (.integer 2))], some 0⟩] 0) rfl
      wf_newEnvironmentSt (by decide) (by simp)

/-- C3 counterexample: parsing `\x7b"one": 1,\x7d` — a hash literal whose
final pair is followed by a comma directly before the closing brace —
produces the well-formed HashLiteral node and records no parser error,
refuting the claim that such input is rejected. -/
theorem claim_C3_counterexample :
    parseSource "\x7b\"one\": 1,\x7d" =
      ([.exprS (.hashLit [(.strLit "one", .intLit 1)])], []) := rfl

/-- C3 amended: a comma after the final `key : value` pair immediately
before the closing brace is consumed and accepted — the pair loop sees the
brace, exits, and the HashLiteral with the pairs already parsed is produced
with no recorded error (here for a one-pair literal with any key string). -/
theorem claim_C3 (s : String) :
    parseTokens [⟨.LBRACE, "\x7b"⟩, ⟨.STRING, s⟩, ⟨.COLON, ":"⟩, ⟨.INT, "1"⟩,
        ⟨.COMMA, ","⟩, ⟨.RBRACE, "\x7d"⟩, ⟨.EOF, ""⟩] =
      ([.exprS (.hashLit [(.strLit s, .intLit 1)])], []) := rfl

/-- Dispatch of `evalInfixExpression` for operands that are not both
strings and not both integers: the remaining switch cases apply. -/
theorem evalInfix_to_rest (op : String) (l r : Obj)
    (hni : ¬(l.objType = INTEGER_OBJ ∧ r.objType = INTEGER_OBJ))
    (hns : ¬(l.objType = STRING_OBJ ∧ r.objType = STRING_OBJ)) :
    evalInfixExpression op (some l) (some r) = evalInfixRest op l (some r) := by
  simp only [evalInfixExpression]
  by_cases hl : l.objType = STRING_OBJ
  · rw [if_pos hl]
    have hr : ¬ r.objType = STRING_OBJ := fun hr => hns ⟨hl, hr⟩
    rw [if_neg hr]
  · rw [if_neg hl]
    by_cases hi : l.objType = INTEGER_OBJ
    · rw [if_pos hi]
      have hr : ¬ r.objType = INTEGER_OBJ := fun hr => hni ⟨hi, hr⟩
      rw [if_neg hr]
    · rw [if_neg hi]

/-- C5: on operand pairs that are not both INTEGER and not both STRING
(error operands are excluded by the same `isError` guards under which the
evaluator calls `evalInfixExpression`, and carry no identity in the
model), `==` and `!=` return a Boolean computed by reference identity —
even when the operand types differ, as `5 == true` evaluating to a Boolean
shows — while the `type mismatch` error arises exactly for the other
operators on differing types.  Reference identity is allocation identity:
the aliased comparison `let a = [1]; a == a;` yields true (both sides are
the one stored array pointer) and `[1] == [1];` compares two fresh
allocations, yielding false; `let f = fn(x) { x }; f == f;` likewise. -/
theorem claim_C5 :
    (∀ (op : String) (l r : Obj), (op = "==" ∨ op = "!=") →
      ¬(l.objType = INTEGER_OBJ ∧ r.objType = INTEGER_OBJ) →
      ¬(l.objType = STRING_OBJ ∧ r.objType = STRING_OBJ) →
      isError (some l) = false → isError (some r) = false →
      evalInfixExpression op (some l) (some r) =
        .ok (some (.boolean (if op = "==" then objRefEq l r else ! objRefEq l r)))) ∧
    (∀ (op : String) (l r : Obj), op ≠ "==" → op ≠ "!=" →
      l.objType ≠ r.objType →
      evalInfixExpression op (some l) (some r) =
        .ok (some (.error ("type mismatch: " ++ l.objType ++ " " ++ op ++ " "
            ++ r.objType)))) ∧
    interp "5 == true;" = .ok (some (.boolean false)) ∧
    interp "let a = [1]; a == a;" = .ok (some (.boolean true)) ∧
    interp "[1] == [1];" = .ok (some (.boolean false)) ∧
    interp "let f = fn(x) \x7b x \x7d; f == f;" = .ok (some (.boolean true)) := by
  refine ⟨?_, ?_, rfl, rfl, rfl, rfl⟩
  · intro op l r hop hni hns _ _
    rw [evalInfix_to_rest op l r hni hns]
    rcases hop with hop | hop <;> subst hop <;> rfl
  · intro op l r hop1 hop2 hne
    have hni : ¬(l.objType = INTEGER_OBJ ∧ r.objType = INTEGER_OBJ) :=
      fun h => hne (h.1.trans h.2.symm)
    have hns : ¬(l.objType = STRING_OBJ ∧ r.objType = STRING_OBJ) :=
      fun h => hne (h.1.trans h.2.symm)
    rw [evalInfix_to_rest op l r hni hns]
    simp only [evalInfixRest]
    rw [if_neg hop1, if_neg hop2]
    simp [hne]

theorem claim_C5_witness :
    evalInfixExpression "==" (some (.integer 5)) (some (.boolean true)) =
      .ok (some (.boolean false)) ∧
    evalInfixExpression "==" (some (.array 3 [some (.integer 1)]))
      (some (.array 3 [some (.integer 1)])) = .ok (some (.boolean true)) ∧
    evalInfixExpression "!=" (some (.array 3 [some (.integer 1)]))
      (some (.array 4 [some (.integer 1)])) = .ok (some (.boolean true)) ∧
    evalInfixExpression "+" (some (.integer 5)) (some (.boolean true)) =
      .ok (some (.error "type mismatch: INTEGER + BOOLEAN")) := by
  refine ⟨?_, ?_, ?_, ?_⟩
  · exact claim_C5.1 "==" (.integer 5) (.boolean true) (Or.inl rfl)
      (by decide) (by decide) rfl rfl
  · exact claim_C5.1 "==" (.array 3 [some (.integer 1)]) (.array 3 [some (.integer 1)])
      (Or.inl rfl) (by decide) (by decide) rfl rfl
  · exact claim_C5.1 "!=" (.array 3 [some (.integer 1)]) (.array 4 [some (.integer 1)])
      (Or.inr rfl) (by decide) (by decide) rfl rfl
  · exact claim_C5.2.1 "+" (.integer 5) (.boolean true) (by decide) (by decide)
      (by decide)

/-- C6: the three runtime error messages arise as specified, and the
identifier case consults the environment chain first, then the builtin
registry, and only then produces the `identifier not found` error. -/
theorem claim_C6 :
    interp "5 + true;" = .ok (some (.error "type mismatch: INTEGER + BOOLEAN")) ∧
    interp "true + false;" = .ok (some (.error "unknown operator: BOOLEAN + BOOLEAN")) ∧
    interp "foobar;" = .ok (some (.error "identifier not found: foobar")) ∧
    (∀ (st : St) (env : Nat) (name : String),
      envGet st st.envs.size env name = none → builtinsLookup name = none →
      evalIdentifierF st env name = some (.error ("identifier not found: " ++ name))) ∧
    (∀ (st : St) (env : Nat) (name : String) (b : Obj),
      envGet st st.envs.size env name = none → builtinsLookup name = some b →
      evalIdentifierF st env name = some b) := by
  refine ⟨rfl, rfl, rfl, ?_, ?_⟩
  · intro st env name h1 h2
    simp [evalIdentifierF, h1, h2]
  · intro st env name b h1 h2
    simp [evalIdentifierF, h1, h2]

theorem claim_C6_witness :
    evalIdentifierF newEnvironmentSt 0 "foobar" =
      some (.error "identifier not found: foobar") ∧
    evalIdentifierF newEnvironmentSt 0 "len" = some (.builtin "len") := by
  constructor
  · exact claim_C6.2.2.2.1 newEnvironmentSt 0 "foobar" rfl rfl
  · exact claim_C6.2.2.2.2 newEnvironmentSt 0 "len" (.builtin "len") rfl rfl

/-- C7: the consequence of an if-expression runs exactly when the condition
value is neither the FALSE singleton nor NULL (so 0 and the empty string
are truthy — `if (0)` takes the consequence), and a falsy condition with no
alternative yields NULL. -/
theorem claim_C7 :
    (∀ o : Obj, isTruthy (some o) = true ↔ (o ≠ .boolean false ∧ o ≠ .null)) ∧
    (∀ (fuel : Nat) (cond : Expr) (cons : List Stmt) (alt : Option (List Stmt))
        (env : Nat) (st : St) (v : Option Obj) (st2 : St),
      evalExpr fuel cond env st = (.ok v, st2) → isError v = false →
      isTruthy v = true →
      evalExpr (fuel + 1) (.ifE cond cons alt) env st =
        evalBlockStatement fuel cons none env st2) ∧
    (∀ (fuel : Nat) (cond : Expr) (cons : List Stmt) (env : Nat) (st : St)
        (v : Option Obj) (st2 : St),
      evalExpr fuel cond env st = (.ok v, st2) → isError v = false →
      isTruthy v = false →
      evalExpr (fuel + 1) (.ifE cond cons none) env st = (.ok (some .null), st2)) ∧
    interp "if (0) \x7b 1 \x7d else \x7b 2 \x7d" = .ok (some (.integer 1)) ∧
    interp "if (false) \x7b 1 \x7d" = .ok (some .null) := by
  refine ⟨?_, ?_, ?_, rfl, rfl⟩
  · intro o
    cases o with
    | boolean b => cases b <;> simp [isTruthy]
    | null => simp [isTruthy]
    | _ => simp [isTruthy]
  · intro fuel cond cons alt env st v st2 hEval hErr hTruthy
    simp only [evalExpr, hEval, hErr, hTruthy]
    simp
  · intro fuel cond cons env st v st2 hEval hErr hTruthy
    simp only [evalExpr, hEval, hErr, hTruthy]
    simp

theorem claim_C7_witness :
    isTruthy (some (.integer 0)) = true ∧
    evalExpr 2 (.ifE (.intLit 0) [.exprS (.intLit 1)] none) 0 newEnvironmentSt =
      evalBlockStatement 1 [.exprS (.intLit 1)] none 0 newEnvironmentSt ∧
    evalExpr 2 (.ifE (.boolLit false) [.exprS (.intLit 1)] none) 0 newEnvironmentSt =
      (.ok (some .null), newEnvironmentSt) := by
  refine ⟨?_, ?_, ?_⟩
  · exact (claim_C7.1 (.integer 0)).mpr (by simp)
  · exact claim_C7.2.1 1 (.intLit 0) [.exprS (.intLit 1)] none 0 newEnvironmentSt
      (some (.integer 0)) newEnvironmentSt rfl rfl rfl
  · exact claim_C7.2.2.1 1 (.boolLit false) [.exprS (.intLit 1)] 0 newEnvironmentSt
      (some (.boolean false)) newEnvironmentSt rfl rfl rfl

theorem claim_C10_witness :
    evalStmt 2 (.letS "x" (.intLit 5)) 0 newEnvironmentSt =
      (.ok none, envSet newEnvironmentSt 0 "x" (some (.integer 5))) := by
  exact claim_C10.1 1 "x" (.intLit 5) 0 newEnvironmentSt (some (.integer 5))
    newEnvironmentSt rfl rfl

end Monkey
